import Mathlib

/-!
Verification development for the mudURLShort URL-shortening service
(`main.go`).  The Go source is shallowly embedded below:

* `generateShortCode` models `generateShortCode` (main.go:122-129); the
  process-wide pseudorandom source is modelled as a stream
  `stream : Nat → Nat` of raw values together with a cursor `pos`, each
  `rand.Intn n` call consuming one stream value and reducing it `% n`.
* `shortCodeExists` models `shortCodeExists` (main.go:146-154): the
  `SELECT EXISTS` query is a function returning `Except String Bool`;
  a query error is folded to `true` ("assume it exists").
* `codeLoop` models the candidate-generation loop (main.go:95-100) and
  `shortenHandler` the whole handler (main.go:82-119).  Since the database
  can change between two storage calls of one request, the query function
  also receives the index of the storage call within the request.  The
  outcome record additionally carries, as observation fields, the list of
  codes passed to `shortCodeExists` (in order) and the handler-level
  `log.Println` messages.
* `UrlsTable`/`urlsInsert` model the `urls` table created by `createTable`
  (main.go:132-143): auto-increment `id` starting at 1, and the
  `UNIQUE NOT NULL` constraint on `short_code` making `INSERT` fail when
  the code is already present.
* `indexHandler` models `indexHandler` (main.go:72-79), in particular that
  `template.Must` panics when `template.ParseFiles("index.html")` fails,
  while only an `Execute` error takes the logged 500 path.
* `muxHandler`/`serveMux` model the two `http.HandleFunc` registrations in
  `main` (main.go:45-52) with Go `ServeMux` longest-pattern matching.
* `mainRandInit` models lines 24-26 of `main`: a source is built from the
  clock and `rand.New(source)` is called, but its result is discarded and
  the package-global generator state is never written.
-/

set_option autoImplicit false

/-- The fixed 62-symbol alphabet of `generateShortCode` (main.go:123). -/
def charset : String := "abcdefghijklmnopqrstuvwxyzABCDEFGHIJKLMNOPQRSTUVWXYZ0123456789"

/-- The alphabet as a list of characters. -/
def charsetList : List Char := charset.data

/-- Model of `rand.Intn`: the raw stream value `v` reduced into `[0, n)`. -/
def randIntn (v n : Nat) : Nat := v % n

/-- `generateShortCode` (main.go:122-129): build a string of `len`
characters, character `i` being `charset[rand.Intn(len(charset))]` for the
`i`-th consumed stream value. -/
def generateShortCode (stream : Nat → Nat) (pos len : Nat) : String :=
  String.mk ((List.range len).map (fun i =>
    charsetList.getD (randIntn (stream (pos + i)) charsetList.length) 'a'))

/-- `shortCodeExists` (main.go:146-154): run the `SELECT EXISTS` query;
on a query error, log and return `true` ("assume it exists"). -/
def shortCodeExists (query : String → Except String Bool) (shortCode : String) : Bool :=
  match query shortCode with
  | Except.error _ => true
  | Except.ok b => b

/-- One row of the `urls` table: `(id, short_code, long_url)`. -/
abbrev UrlsRow : Type := Nat × String × String

/-- The `urls` table (main.go:132-143): rows plus the next auto-increment
`id`. -/
structure UrlsTable where
  rows : List UrlsRow
  nextId : Nat
deriving DecidableEq

/-- The table right after `createTable` on a fresh database: no rows,
auto-increment counter at 1. -/
def emptyUrls : UrlsTable := ⟨[], 1⟩

/-- The `INSERT INTO urls (short_code, long_url) VALUES (?, ?)` statement
(main.go:109) against the schema of `createTable` (main.go:132-143): the
`UNIQUE` constraint on `short_code` rejects a duplicate code, otherwise a
row is appended with the next auto-increment id. -/
def urlsInsert (t : UrlsTable) (code url : String) : Except String UrlsTable :=
  if t.rows.any (fun r => r.2.1 == code) then
    Except.error "UNIQUE constraint failed: urls.short_code"
  else
    Except.ok ⟨t.rows ++ [(t.nextId, code, url)], t.nextId + 1⟩

/-- The `SELECT EXISTS(SELECT 1 FROM urls WHERE short_code = ?)` query
(main.go:148) over a table state `t`, as the per-call query function of a
request (the call index is ignored: the sequential model has no concurrent
writer changing `t` mid-request). -/
def urlsExistsQuery (t : UrlsTable) : Nat → String → Except String Bool :=
  fun _ code => Except.ok (t.rows.any (fun r => r.2.1 == code))

/-- An HTTP response: status code and plain-text body. -/
structure Response where
  status : Nat
  body : String
deriving DecidableEq

/-- Result of one `shortenHandler` invocation: the response, the table
state after the request, and two observation fields — the codes passed to
`shortCodeExists` in order, and the handler-level log lines. -/
structure ShortenOutcome where
  response : Response
  table : UrlsTable
  checks : List String
  logs : List String
deriving DecidableEq

/-- The candidate-generation loop of `shortenHandler` (main.go:95-100):
up to `fuel` (in the source: 10) attempts; each attempt generates a
candidate with `generateShortCode(6)` and breaks when `shortCodeExists`
reports it free.  Returns the final value of the `shortCode` variable, the
index of the next storage call, and the codes checked in order. -/
def codeLoop (stream : Nat → Nat) (query : Nat → String → Except String Bool) :
    Nat → Nat → Nat → String → String × Nat × List String
  | 0, _, qIdx, code => (code, qIdx, [])
  | fuel + 1, pos, qIdx, _ =>
    if shortCodeExists (query qIdx) (generateShortCode stream pos 6) then
      ((codeLoop stream query fuel (pos + 6) (qIdx + 1) (generateShortCode stream pos 6)).1,
       (codeLoop stream query fuel (pos + 6) (qIdx + 1) (generateShortCode stream pos 6)).2.1,
       generateShortCode stream pos 6 ::
         (codeLoop stream query fuel (pos + 6) (qIdx + 1) (generateShortCode stream pos 6)).2.2)
    else
      (generateShortCode stream pos 6, qIdx + 1, [generateShortCode stream pos 6])

/-- The first `k` candidates the loop would generate from stream cursor
`pos`: one `generateShortCode _ _ 6` per attempt, each consuming 6 stream
values. -/
def candidates (stream : Nat → Nat) (pos : Nat) : Nat → List String
  | 0 => []
  | k + 1 => generateShortCode stream pos 6 :: candidates stream (pos + 6) k

/-- Configuration (main.go:17-21). -/
structure Config where
  DBPath : String
  ServerPort : String
  ShortURLBase : String
deriving DecidableEq

/-- `loadConfig` (main.go:60-69): hardcoded values. -/
def loadConfig : Config := ⟨"./urls.db", "8080", "http://short.url/"⟩

/-- `shortenHandler` (main.go:82-119).  `method` and `longURL` are the
request method and the `long_url` form value; `query` answers the `k`-th
existence query of this request; `ins` is the behaviour of the `INSERT`
statement (the real table semantics is `urlsInsert`; a request whose
deadline has elapsed sees erroring storage operations instead). -/
def shortenHandler (method longURL : String) (stream : Nat → Nat) (pos : Nat)
    (query : Nat → String → Except String Bool)
    (ins : UrlsTable → String → String → Except String UrlsTable)
    (config : Config) (t : UrlsTable) : ShortenOutcome :=
  if method ≠ "POST" then
    ⟨⟨405, "Method not allowed"⟩, t, [], []⟩
  else
    match codeLoop stream query 10 pos 0 "" with
    | (code, qIdx, trace) =>
      if shortCodeExists (query qIdx) code then
        ⟨⟨500, "Internal server error"⟩, t, trace ++ [code],
         ["Failed to generate a unique short code after 10 attempts"]⟩
      else
        match ins t code longURL with
        | Except.error _ =>
            ⟨⟨500, "Internal server error"⟩, t, trace ++ [code],
             ["Error inserting into database"]⟩
        | Except.ok t2 =>
            ⟨⟨200, "Short URL: " ++ config.ShortURLBase ++ code⟩, t2, trace ++ [code], []⟩

/-- A sequence of shorten requests against the real storage semantics:
each element supplies the `long_url` form value and the random stream with
its cursor; each request queries and inserts into the table left by the
previous one. -/
def runShorten (cfg : Config) : List (String × (Nat → Nat) × Nat) → UrlsTable →
    List ShortenOutcome × UrlsTable
  | [], t => ([], t)
  | (u, s, p) :: rest, t =>
    (shortenHandler "POST" u s p (urlsExistsQuery t) urlsInsert cfg t ::
       (runShorten cfg rest (shortenHandler "POST" u s p (urlsExistsQuery t) urlsInsert cfg t).table).1,
     (runShorten cfg rest (shortenHandler "POST" u s p (urlsExistsQuery t) urlsInsert cfg t).table).2)

/-- Storage behaviour of a request whose 5-second deadline has elapsed:
every `QueryRowContext` call returns the context error. -/
def deadlineQuery : Nat → String → Except String Bool :=
  fun _ _ => Except.error "context deadline exceeded"

/-- `ExecContext` behaviour of a request whose deadline elapses before the
insert commits: the statement returns the context error and no row is
written. -/
def deadlineInsert : UrlsTable → String → String → Except String UrlsTable :=
  fun _ _ _ => Except.error "context deadline exceeded"

/-- Outcome of one `indexHandler` invocation (main.go:72-79). -/
inductive IndexOutcome where
  /-- `template.Must` panicked because `template.ParseFiles` failed; the
  request goroutine dies without writing the 500 response of this handler. -/
  | panicked (msg : String)
  /-- The template executed; the rendered page was written with status 200. -/
  | rendered
  /-- `tmpl.Execute` failed: the error is logged and
  `http.Error(w, "Internal server error", 500)` is written. -/
  | serverError
deriving DecidableEq

/-- `indexHandler` (main.go:72-79): `template.Must(template.ParseFiles("index.html"))`
panics when parsing fails (e.g. the file is missing); otherwise an
`Execute` error is logged and answered with a generic 500. -/
def indexHandler (parseFilesResult : Except String Unit)
    (executeResult : Except String Unit) : IndexOutcome :=
  match parseFilesResult with
  | Except.error e => IndexOutcome.panicked e
  | Except.ok _ =>
    match executeResult with
    | Except.error _ => IndexOutcome.serverError
    | Except.ok _ => IndexOutcome.rendered

/-- Go `ServeMux` matching for one registered route: a route ending in `/`
matches every path it prefixes, any other route matches exactly. -/
def routeMatches (route path : String) : Bool :=
  if route.data.getLast? = some '/' then route.data.isPrefixOf path.data else path == route

/-- The routes registered by `main` (main.go:45-52). -/
def registeredRoutes : List String := ["/", "/shorten"]

/-- `ServeMux` dispatch: the longest matching registered route wins;
`none` means no route matches and the mux answers 404. -/
def muxHandler (path : String) : Option String :=
  (registeredRoutes.filter (fun p => routeMatches p path)).foldl
    (fun acc p =>
      match acc with
      | none => some p
      | some q => if q.length < p.length then some p else some q)
    none

/-- What the server answers a request with. -/
inductive ServeResult where
  /-- Dispatched to `indexHandler`. -/
  | indexPage (o : IndexOutcome)
  /-- Dispatched to `shortenHandler`. -/
  | shortenResp (o : ShortenOutcome)
  /-- No registered route matched: the mux writes `404 page not found`. -/
  | notFound
deriving DecidableEq

/-- The server of `main` (main.go:45-52): route the request path through
the mux and run the matched handler. -/
def serveMux (path method : String) (parseFilesResult executeResult : Except String Unit)
    (longURL : String) (stream : Nat → Nat) (pos : Nat)
    (query : Nat → String → Except String Bool)
    (ins : UrlsTable → String → String → Except String UrlsTable)
    (cfg : Config) (t : UrlsTable) : ServeResult :=
  match muxHandler path with
  | none => ServeResult.notFound
  | some p =>
    if p = "/shorten" then
      ServeResult.shortenResp (shortenHandler method longURL stream pos query ins cfg t)
    else
      ServeResult.indexPage (indexHandler parseFilesResult executeResult)

/-- Model of the `math/rand` package-global state: the seed of the source
behind the top-level functions (`rand.Intn` and friends).  Go initialises
it to a fixed default; only `rand.Seed` replaces it. -/
structure MathRandState where
  globalSeed : Nat
deriving DecidableEq

/-- A `*rand.Rand` value as returned by `rand.New`: it owns the source it
was built from. -/
structure RandGen where
  seed : Nat
deriving DecidableEq

/-- Lines 24-26 of `main`: `source := rand.NewSource(time.Now().UnixNano())`
followed by `rand.New(source)`.  `rand.New` allocates a fresh generator
around `source` and returns it; `main` binds the result to nothing, and no
call writes the package-global state, which is returned unchanged. -/
def mainRandInit (now : Nat) (st : MathRandState) : MathRandState × RandGen :=
  (st, ⟨now⟩)

/-! ### Basic lemmas about the embedded definitions -/

theorem generateShortCode_length (s : Nat → Nat) (p n : Nat) :
    (generateShortCode s p n).length = n := by
  simp [generateShortCode, String.length]

theorem generateShortCode_mem (s : Nat → Nat) (p n : Nat) :
    ∀ c ∈ (generateShortCode s p n).data, c ∈ charsetList := by
  intro c hc
  simp only [generateShortCode, List.mem_map, List.mem_range] at hc
  obtain ⟨i, _, rfl⟩ := hc
  have hlt : randIntn (s (p + i)) charsetList.length < charsetList.length := by
    apply Nat.mod_lt
    decide
  rw [List.getD_eq_getElem _ _ hlt]
  exact List.getElem_mem hlt

theorem codeLoop_zero (s : Nat → Nat) (q : Nat → String → Except String Bool)
    (pos qi : Nat) (c0 : String) : codeLoop s q 0 pos qi c0 = (c0, qi, []) := rfl

theorem codeLoop_succ (s : Nat → Nat) (q : Nat → String → Except String Bool)
    (fuel pos qi : Nat) (c0 : String) :
    codeLoop s q (fuel + 1) pos qi c0 =
      if shortCodeExists (q qi) (generateShortCode s pos 6) then
        ((codeLoop s q fuel (pos + 6) (qi + 1) (generateShortCode s pos 6)).1,
         (codeLoop s q fuel (pos + 6) (qi + 1) (generateShortCode s pos 6)).2.1,
         generateShortCode s pos 6 ::
           (codeLoop s q fuel (pos + 6) (qi + 1) (generateShortCode s pos 6)).2.2)
      else
        (generateShortCode s pos 6, qi + 1, [generateShortCode s pos 6]) := rfl

theorem candidates_length (s : Nat → Nat) :
    ∀ (k pos : Nat), (candidates s pos k).length = k := by
  intro k
  induction k with
  | zero => intro pos; rfl
  | succ k ih => intro pos; simp [candidates, ih]

theorem candidates_getD (s : Nat → Nat) :
    ∀ (k i pos : Nat) (d : String), i < k →
      (candidates s pos k).getD i d = generateShortCode s (pos + 6 * i) 6 := by
  intro k
  induction k with
  | zero => intro i pos d hi; omega
  | succ k ih =>
    intro i pos d hi
    match i with
    | 0 => simp [candidates]
    | i + 1 =>
      have := ih i (pos + 6) d (by omega)
      have e : pos + 6 + 6 * i = pos + 6 * (i + 1) := by ring
      rw [e] at this
      simpa [candidates] using this

theorem codeLoop_code_shape (s : Nat → Nat) (q : Nat → String → Except String Bool) :
    ∀ (fuel pos qi : Nat) (c0 : String), 0 < fuel →
      ∃ p, (codeLoop s q fuel pos qi c0).1 = generateShortCode s p 6 := by
  intro fuel
  induction fuel with
  | zero => intro pos qi c0 h; omega
  | succ fuel ih =>
    intro pos qi c0 _
    rw [codeLoop_succ]
    by_cases hx : shortCodeExists (q qi) (generateShortCode s pos 6) = true
    · rw [if_pos hx]
      match fuel, ih with
      | 0, _ => exact ⟨pos, rfl⟩
      | fuel + 1, ih => exact ih (pos + 6) (qi + 1) (generateShortCode s pos 6) (Nat.succ_pos _)
    · rw [if_neg hx]
      exact ⟨pos, rfl⟩

theorem codeLoop_exhaust (s : Nat → Nat) (q : Nat → String → Except String Bool) :
    ∀ (k pos qi : Nat) (c0 : String),
      (∀ i, i < k + 1 → shortCodeExists (q (qi + i)) (generateShortCode s (pos + 6 * i) 6) = true) →
      codeLoop s q (k + 1) pos qi c0 =
        (generateShortCode s (pos + 6 * k) 6, qi + (k + 1), candidates s pos (k + 1)) := by
  intro k
  induction k with
  | zero =>
    intro pos qi c0 h
    have h0 := h 0 Nat.one_pos
    simp only [Nat.mul_zero, Nat.add_zero] at h0
    rw [codeLoop_succ, if_pos h0]
    simp [codeLoop_zero, candidates]
  | succ k ih =>
    intro pos qi c0 h
    have h0 := h 0 (Nat.succ_pos _)
    simp only [Nat.mul_zero, Nat.add_zero] at h0
    have hrest : ∀ i, i < k + 1 →
        shortCodeExists (q (qi + 1 + i)) (generateShortCode s (pos + 6 + 6 * i) 6) = true := by
      intro i hi
      have hh := h (i + 1) (by omega)
      have e1 : qi + (i + 1) = qi + 1 + i := by omega
      have e2 : pos + 6 * (i + 1) = pos + 6 + 6 * i := by ring
      rw [e1, e2] at hh
      exact hh
    have hih := ih (pos + 6) (qi + 1) (generateShortCode s pos 6) hrest
    rw [codeLoop_succ, if_pos h0, hih]
    have e1 : pos + 6 + 6 * k = pos + 6 * (k + 1) := by ring
    have e2 : qi + 1 + (k + 1) = qi + (k + 1 + 1) := by ring
    rw [e1, e2]
    simp [candidates]

theorem codeLoop_break (s : Nat → Nat) (q : Nat → String → Except String Bool) :
    ∀ (j k pos qi : Nat) (c0 : String), j < k →
      (∀ i, i < j → shortCodeExists (q (qi + i)) (generateShortCode s (pos + 6 * i) 6) = true) →
      shortCodeExists (q (qi + j)) (generateShortCode s (pos + 6 * j) 6) = false →
      codeLoop s q k pos qi c0 =
        (generateShortCode s (pos + 6 * j) 6, qi + j + 1, candidates s pos (j + 1)) := by
  intro j
  induction j with
  | zero =>
    intro k pos qi c0 hk _ hbr
    match k, hk with
    | k + 1, _ =>
      simp only [Nat.mul_zero, Nat.add_zero] at hbr
      rw [codeLoop_succ, if_neg (by simp [hbr])]
      simp [candidates]
  | succ j ih =>
    intro k pos qi c0 hk hex hbr
    match k, hk with
    | k + 1, hk =>
      have h0 := hex 0 (Nat.succ_pos _)
      simp only [Nat.mul_zero, Nat.add_zero] at h0
      have hex' : ∀ i, i < j →
          shortCodeExists (q (qi + 1 + i)) (generateShortCode s (pos + 6 + 6 * i) 6) = true := by
        intro i hi
        have hh := hex (i + 1) (by omega)
        have e1 : qi + (i + 1) = qi + 1 + i := by omega
        have e2 : pos + 6 * (i + 1) = pos + 6 + 6 * i := by ring
        rw [e1, e2] at hh
        exact hh
      have hbr' : shortCodeExists (q (qi + 1 + j)) (generateShortCode s (pos + 6 + 6 * j) 6) = false := by
        have e1 : qi + (j + 1) = qi + 1 + j := by omega
        have e2 : pos + 6 * (j + 1) = pos + 6 + 6 * j := by ring
        rw [e1, e2] at hbr
        exact hbr
      have hih := ih k (pos + 6) (qi + 1) (generateShortCode s pos 6) (by omega) hex' hbr'
      rw [codeLoop_succ, if_pos h0, hih]
      have e1 : pos + 6 + 6 * j = pos + 6 * (j + 1) := by ring
      have e2 : qi + 1 + j + 1 = qi + (j + 1) + 1 := by ring
      rw [e1, e2]
      simp [candidates]

theorem shortenHandler_post (u : String) (s : Nat → Nat) (pos : Nat)
    (q : Nat → String → Except String Bool)
    (ins : UrlsTable → String → String → Except String UrlsTable)
    (cfg : Config) (t : UrlsTable) (code : String) (qIdx : Nat) (trace : List String)
    (hl : codeLoop s q 10 pos 0 "" = (code, qIdx, trace)) :
    shortenHandler "POST" u s pos q ins cfg t =
      if shortCodeExists (q qIdx) code then
        ⟨⟨500, "Internal server error"⟩, t, trace ++ [code],
         ["Failed to generate a unique short code after 10 attempts"]⟩
      else
        match ins t code u with
        | Except.error _ =>
            ⟨⟨500, "Internal server error"⟩, t, trace ++ [code],
             ["Error inserting into database"]⟩
        | Except.ok t2 =>
            ⟨⟨200, "Short URL: " ++ cfg.ShortURLBase ++ code⟩, t2, trace ++ [code], []⟩ := by
  unfold shortenHandler
  rw [if_neg (by simp), hl]

theorem string_append_left_cancel (s a b : String) (h : s ++ a = s ++ b) : a = b := by
  have hd := congrArg String.data h
  simp only [String.data_append] at hd
  exact String.ext (List.append_cancel_left hd)

/-- A successful shorten request against the real storage semantics: the
response body is the base prefix plus a fresh 6-character alphabet code,
and exactly that one row was appended to the table. -/
theorem shorten_success_shape (u : String) (s : Nat → Nat) (p : Nat) (cfg : Config)
    (t : UrlsTable) (out : ShortenOutcome)
    (hout : shortenHandler "POST" u s p (urlsExistsQuery t) urlsInsert cfg t = out)
    (h200 : out.response.status = 200) :
    ∃ code, code.length = 6 ∧ (∀ c ∈ code.data, c ∈ charsetList) ∧
      out.response.body = "Short URL: " ++ cfg.ShortURLBase ++ code ∧
      t.rows.any (fun r => r.2.1 == code) = false ∧
      out.table.rows = t.rows ++ [(t.nextId, code, u)] ∧
      out.table.nextId = t.nextId + 1 := by
  rcases hl : codeLoop s (urlsExistsQuery t) 10 p 0 "" with ⟨code, qIdx, trace⟩
  obtain ⟨pp, hpp⟩ := codeLoop_code_shape s (urlsExistsQuery t) 10 p 0 "" (by omega)
  rw [hl] at hpp
  simp only at hpp
  rw [shortenHandler_post u s p (urlsExistsQuery t) urlsInsert cfg t code qIdx trace hl] at hout
  by_cases hx : shortCodeExists (urlsExistsQuery t qIdx) code = true
  · rw [if_pos hx] at hout
    rw [← hout] at h200
    simp at h200
  · simp only [Bool.not_eq_true] at hx
    rw [if_neg (by simp [hx])] at hout
    have hany : t.rows.any (fun r => r.2.1 == code) = false := by
      simpa [shortCodeExists, urlsExistsQuery] using hx
    have hins : urlsInsert t code u =
        Except.ok ⟨t.rows ++ [(t.nextId, code, u)], t.nextId + 1⟩ := by
      unfold urlsInsert
      rw [if_neg (by simp [hany])]
    rw [hins] at hout
    refine ⟨code, ?_, ?_, ?_, hany, ?_, ?_⟩
    · rw [hpp]; exact generateShortCode_length s pp 6
    · rw [hpp]; exact generateShortCode_mem s pp 6
    · rw [← hout]
    · rw [← hout]
    · rw [← hout]

/-- Running a sequence of shorten requests in which every request
succeeds, from any starting table whose codes are distinct: each request
appends one row with a code fresh at its time, so codes stay pairwise
distinct and the bodies list the new codes in order. -/
theorem runShorten_success (cfg : Config) :
    ∀ (inputs : List (String × (Nat → Nat) × Nat)) (t : UrlsTable),
      (t.rows.map (fun r => r.2.1)).Nodup →
      (∀ o ∈ (runShorten cfg inputs t).1, o.response.status = 200) →
      ∃ newCodes : List String,
        newCodes.length = inputs.length ∧
        (runShorten cfg inputs t).2.rows.map (fun r => r.2.1) =
          t.rows.map (fun r => r.2.1) ++ newCodes ∧
        (runShorten cfg inputs t).1.map (fun o => o.response.body) =
          newCodes.map (fun c => "Short URL: " ++ cfg.ShortURLBase ++ c) ∧
        (t.rows.map (fun r => r.2.1) ++ newCodes).Nodup ∧
        (runShorten cfg inputs t).2.rows.length = t.rows.length + inputs.length := by
  intro inputs
  induction inputs with
  | nil =>
    intro t hnd _
    exact ⟨[], rfl, by simp [runShorten], rfl, by simpa using hnd, by simp [runShorten]⟩
  | cons hd rest ih =>
    rcases hd with ⟨u, s, p⟩
    intro t hnd hall
    have hout : shortenHandler "POST" u s p (urlsExistsQuery t) urlsInsert cfg t =
        shortenHandler "POST" u s p (urlsExistsQuery t) urlsInsert cfg t := rfl
    have h200 : (shortenHandler "POST" u s p (urlsExistsQuery t) urlsInsert cfg t).response.status = 200 := by
      apply hall
      simp [runShorten]
    obtain ⟨code, _, _, hbody, hfresh, hrows, _⟩ :=
      shorten_success_shape u s p cfg t _ hout h200
    have hnotmem : code ∉ t.rows.map (fun r => r.2.1) := by
      intro hmem
      rw [List.any_eq_false] at hfresh
      obtain ⟨r, hr, hrc⟩ := List.mem_map.mp hmem
      exact hfresh r hr (by simp [hrc])
    have hnd' : ((shortenHandler "POST" u s p (urlsExistsQuery t) urlsInsert cfg t).table.rows.map
        (fun r => r.2.1)).Nodup := by
      rw [hrows, List.map_append, List.nodup_append]
      refine ⟨hnd, by simp, ?_⟩
      intro a ha hb
      simp only [List.map_cons, List.map_nil, List.mem_singleton] at hb
      subst hb
      exact hnotmem ha
    have hall' : ∀ o ∈ (runShorten cfg rest
        (shortenHandler "POST" u s p (urlsExistsQuery t) urlsInsert cfg t).table).1,
        o.response.status = 200 := by
      intro o ho
      apply hall
      simp [runShorten]
      right
      exact ho
    obtain ⟨newCodes, hlen, hmap, hbodies, hnds, hcount⟩ :=
      ih (shortenHandler "POST" u s p (urlsExistsQuery t) urlsInsert cfg t).table hnd' hall'
    refine ⟨code :: newCodes, by simp [hlen], ?_, ?_, ?_, ?_⟩
    · simp only [runShorten]
      rw [hmap, hrows]
      simp
    · simp only [runShorten, List.map_cons]
      rw [hbodies, hbody]
    · rw [hrows] at hnds
      simpa using hnds
    · simp only [runShorten]
      rw [hcount, hrows]
      simp
      omega

theorem candidates_snoc (s : Nat → Nat) :
    ∀ (k pos : Nat), candidates s pos (k + 1) =
      candidates s pos k ++ [generateShortCode s (pos + 6 * k) 6] := by
  intro k
  induction k with
  | zero => intro pos; simp [candidates]
  | succ k ih =>
    intro pos
    have := ih (pos + 6)
    have e : pos + 6 + 6 * k = pos + 6 * (k + 1) := by ring
    rw [e] at this
    calc candidates s pos (k + 1 + 1)
        = generateShortCode s pos 6 :: candidates s (pos + 6) (k + 1) := rfl
      _ = generateShortCode s pos 6 ::
            (candidates s (pos + 6) k ++ [generateShortCode s (pos + 6 * (k + 1)) 6]) := by rw [this]
      _ = candidates s pos (k + 1) ++ [generateShortCode s (pos + 6 * (k + 1)) 6] := by
            simp [candidates]

/-! ### Claim theorems -/

/-- Claim C3: every accepted long-URL input that ends in a successful
shorten response yields a body of the form `"Short URL: "` followed by the
configured base prefix and a code of exactly 6 characters over the
62-character alphabet; and for every length `n`, `generateShortCode`
returns a string of length `n` whose characters all lie in that
alphabet. -/
theorem c3_code_alphabet_and_body :
    (∀ (s : Nat → Nat) (p n : Nat), (generateShortCode s p n).length = n ∧
      ∀ c ∈ (generateShortCode s p n).data, c ∈ charsetList) ∧
    (∀ (method u : String) (s : Nat → Nat) (p : Nat)
        (query : Nat → String → Except String Bool)
        (ins : UrlsTable → String → String → Except String UrlsTable)
        (cfg : Config) (t : UrlsTable) (out : ShortenOutcome),
      shortenHandler method u s p query ins cfg t = out →
      out.response.status = 200 →
      ∃ code, out.response.body = "Short URL: " ++ cfg.ShortURLBase ++ code ∧
        code.length = 6 ∧ ∀ c ∈ code.data, c ∈ charsetList) := by
  constructor
  · intro s p n
    exact ⟨generateShortCode_length s p n, generateShortCode_mem s p n⟩
  · intro method u s p query ins cfg t out hout h200
    by_cases hm : method = "POST"
    · subst hm
      rcases hl : codeLoop s query 10 p 0 "" with ⟨code, qIdx, trace⟩
      obtain ⟨pp, hpp⟩ := codeLoop_code_shape s query 10 p 0 "" (by omega)
      rw [hl] at hpp
      simp only at hpp
      rw [shortenHandler_post u s p query ins cfg t code qIdx trace hl] at hout
      by_cases hx : shortCodeExists (query qIdx) code = true
      · rw [if_pos hx] at hout
        rw [← hout] at h200
        simp at h200
      · rw [if_neg hx] at hout
        cases hins : ins t code u with
        | error e =>
          rw [hins] at hout
          rw [← hout] at h200
          simp at h200
        | ok t2 =>
          rw [hins] at hout
          refine ⟨code, ?_, ?_, ?_⟩
          · rw [← hout]
          · rw [hpp]; exact generateShortCode_length s pp 6
          · rw [hpp]; exact generateShortCode_mem s pp 6
    · unfold shortenHandler at hout
      rw [if_pos hm] at hout
      rw [← hout] at h200
      simp at h200

/-- Witness for C3: a concrete successful request whose body carries the
code `"aaaaaa"`. -/
theorem c3_code_alphabet_and_body_witness :
    shortenHandler "POST" "http://example.com" (fun _ => 0) 0 (urlsExistsQuery emptyUrls)
        urlsInsert loadConfig emptyUrls =
      ⟨⟨200, "Short URL: http://short.url/aaaaaa"⟩,
       ⟨[(1, "aaaaaa", "http://example.com")], 2⟩, ["aaaaaa", "aaaaaa"], []⟩ ∧
    (⟨⟨200, "Short URL: http://short.url/aaaaaa"⟩,
      ⟨[(1, "aaaaaa", "http://example.com")], 2⟩, ["aaaaaa", "aaaaaa"], []⟩ : ShortenOutcome).response.status = 200 ∧
    ∃ code, (⟨⟨200, "Short URL: http://short.url/aaaaaa"⟩,
      ⟨[(1, "aaaaaa", "http://example.com")], 2⟩, ["aaaaaa", "aaaaaa"], []⟩ : ShortenOutcome).response.body =
        "Short URL: " ++ loadConfig.ShortURLBase ++ code ∧
      code.length = 6 ∧ ∀ c ∈ code.data, c ∈ charsetList :=
  ⟨by decide, by decide,
   c3_code_alphabet_and_body.2 "POST" "http://example.com" (fun _ => 0) 0
     (urlsExistsQuery emptyUrls) urlsInsert loadConfig emptyUrls _ (by decide) (by decide)⟩

/-- Claim C4 concerns lines 24-26 of `main`: the code builds
`rand.NewSource(time.Now().UnixNano())` and passes it to `rand.New`, but
the returned generator is bound to nothing, and the package-global
generator that `generateShortCode`'s `rand.Intn` consumes is never
written: the state is returned unchanged, while the startup seed lives
only in the discarded generator. -/
theorem c4_seeded_source_discarded :
    ∀ (now : Nat) (st : MathRandState),
      (mainRandInit now st).1 = st ∧ (mainRandInit now st).2 = ⟨now⟩ :=
  fun _ _ => ⟨rfl, rfl⟩

/-- Claim C5 counterexample: when `template.ParseFiles("index.html")`
fails (missing template file), `indexHandler` does not answer with the
generic 500 server error — `template.Must` panics instead. -/
theorem c5_render_failure_counterexample :
    indexHandler (Except.error "open index.html: no such file or directory") (Except.ok ()) =
      IndexOutcome.panicked "open index.html: no such file or directory" ∧
    indexHandler (Except.error "open index.html: no such file or directory") (Except.ok ()) ≠
      IndexOutcome.serverError :=
  ⟨rfl, by decide⟩

/-- Claim C5, amended: if executing the parsed template fails, the
start-page handler logs the error and responds with the generic HTTP 500
server error; but if parsing the template files fails (including a
missing template file), `template.Must` panics and the request is not
answered through that 500 path. -/
theorem c5_render_failure_amended :
    (∀ e : String, indexHandler (Except.ok ()) (Except.error e) = IndexOutcome.serverError) ∧
    (∀ (e : String) (x : Except String Unit),
      indexHandler (Except.error e) x = IndexOutcome.panicked e) :=
  ⟨fun _ => rfl, fun _ _ => rfl⟩

/-- Claim C6: if the storage read of the existence check fails,
`shortCodeExists` reports `true` (assume collision), and the generation
loop therefore moves on to another attempt instead of breaking out to
insert that candidate. -/
theorem c6_exists_error_fail_safe :
    (∀ (query : String → Except String Bool) (code e : String),
      query code = Except.error e → shortCodeExists query code = true) ∧
    (∀ (s : Nat → Nat) (q : Nat → String → Except String Bool)
        (fuel pos qi : Nat) (c0 e : String),
      q qi (generateShortCode s pos 6) = Except.error e →
      codeLoop s q (fuel + 1) pos qi c0 =
        ((codeLoop s q fuel (pos + 6) (qi + 1) (generateShortCode s pos 6)).1,
         (codeLoop s q fuel (pos + 6) (qi + 1) (generateShortCode s pos 6)).2.1,
         generateShortCode s pos 6 ::
           (codeLoop s q fuel (pos + 6) (qi + 1) (generateShortCode s pos 6)).2.2)) := by
  constructor
  · intro query code e h
    simp [shortCodeExists, h]
  · intro s q fuel pos qi c0 e h
    have hx : shortCodeExists (q qi) (generateShortCode s pos 6) = true := by
      simp [shortCodeExists, h]
    rw [codeLoop_succ, if_pos hx]

/-- Witness for C6: a concrete erroring query forces `true` and one more
loop iteration. -/
theorem c6_exists_error_fail_safe_witness :
    (fun _ : String => (Except.error "sql: database is closed" : Except String Bool)) "aaaaaa" =
      Except.error "sql: database is closed" ∧
    shortCodeExists (fun _ => Except.error "sql: database is closed") "aaaaaa" = true ∧
    codeLoop (fun _ => 0) (fun _ _ => Except.error "sql: database is closed") 10 0 0 "" =
      ((codeLoop (fun _ => 0) (fun _ _ => Except.error "sql: database is closed") 9 6 1
          (generateShortCode (fun _ => 0) 0 6)).1,
       (codeLoop (fun _ => 0) (fun _ _ => Except.error "sql: database is closed") 9 6 1
          (generateShortCode (fun _ => 0) 0 6)).2.1,
       generateShortCode (fun _ => 0) 0 6 ::
         (codeLoop (fun _ => 0) (fun _ _ => Except.error "sql: database is closed") 9 6 1
            (generateShortCode (fun _ => 0) 0 6)).2.2) :=
  ⟨rfl,
   c6_exists_error_fail_safe.1 (fun _ => Except.error "sql: database is closed") "aaaaaa"
     "sql: database is closed" rfl,
   c6_exists_error_fail_safe.2 (fun _ => 0) (fun _ _ => Except.error "sql: database is closed")
     9 0 0 "" "sql: database is closed" rfl⟩

/-- Claim C7: when the request deadline elapses before the storage
operations complete (every storage call returns the context error), the
shorten request answers with a 500 server error and the table is
unchanged — no partial insert.  The first part covers a deadline that
expires before the reads (whatever the insert behaviour, it is never
reached); the second covers an insert aborted by the deadline under any
query behaviour. -/
theorem c7_timeout_no_partial_insert :
    (∀ (s : Nat → Nat) (pos : Nat) (u : String)
        (ins : UrlsTable → String → String → Except String UrlsTable)
        (cfg : Config) (t : UrlsTable),
      shortenHandler "POST" u s pos deadlineQuery ins cfg t =
        ⟨⟨500, "Internal server error"⟩, t,
         candidates s pos 10 ++ [generateShortCode s (pos + 6 * 9) 6],
         ["Failed to generate a unique short code after 10 attempts"]⟩) ∧
    (∀ (s : Nat → Nat) (pos : Nat) (u : String)
        (query : Nat → String → Except String Bool) (cfg : Config) (t : UrlsTable),
      (shortenHandler "POST" u s pos query deadlineInsert cfg t).response.status = 500 ∧
      (shortenHandler "POST" u s pos query deadlineInsert cfg t).table = t) := by
  constructor
  · intro s pos u ins cfg t
    have hl := codeLoop_exhaust s deadlineQuery 9 pos 0 "" (by intro i _; rfl)
    norm_num at hl
    rw [shortenHandler_post u s pos deadlineQuery ins cfg t _ _ _ hl]
    rw [if_pos (show shortCodeExists (deadlineQuery 10)
      (generateShortCode s (pos + 6 * 9) 6) = true from rfl)]
  · intro s pos u query cfg t
    rcases hl : codeLoop s query 10 pos 0 "" with ⟨code, qIdx, trace⟩
    rw [shortenHandler_post u s pos query deadlineInsert cfg t code qIdx trace hl]
    by_cases hx : shortCodeExists (query qIdx) code = true
    · rw [if_pos hx]
      exact ⟨rfl, rfl⟩
    · rw [if_neg hx]
      exact ⟨rfl, rfl⟩

/-- Claim C1: with storage reporting a collision for each of the first 9
generated candidates and none for the 10th (also when re-asked about it),
the shorten operation succeeds and inserts the 10th candidate; with
storage reporting a collision for all 10 candidates (also on the re-ask),
it answers a server error and performs no insert (the table is returned
unchanged whatever the insert behaviour). -/
theorem c1_collision_handling :
    (∀ (s : Nat → Nat) (pos : Nat) (query : Nat → String → Except String Bool)
        (u : String) (cfg : Config) (t : UrlsTable),
      (∀ i, i < 9 → shortCodeExists (query i) (generateShortCode s (pos + 6 * i) 6) = true) →
      shortCodeExists (query 9) (generateShortCode s (pos + 6 * 9) 6) = false →
      shortCodeExists (query 10) (generateShortCode s (pos + 6 * 9) 6) = false →
      t.rows.any (fun r => r.2.1 == generateShortCode s (pos + 6 * 9) 6) = false →
      shortenHandler "POST" u s pos query urlsInsert cfg t =
        ⟨⟨200, "Short URL: " ++ cfg.ShortURLBase ++ generateShortCode s (pos + 6 * 9) 6⟩,
         ⟨t.rows ++ [(t.nextId, generateShortCode s (pos + 6 * 9) 6, u)], t.nextId + 1⟩,
         candidates s pos 10 ++ [generateShortCode s (pos + 6 * 9) 6], []⟩) ∧
    (∀ (s : Nat → Nat) (pos : Nat) (query : Nat → String → Except String Bool)
        (u : String) (ins : UrlsTable → String → String → Except String UrlsTable)
        (cfg : Config) (t : UrlsTable),
      (∀ i, i < 10 → shortCodeExists (query i) (generateShortCode s (pos + 6 * i) 6) = true) →
      shortCodeExists (query 10) (generateShortCode s (pos + 6 * 9) 6) = true →
      shortenHandler "POST" u s pos query ins cfg t =
        ⟨⟨500, "Internal server error"⟩, t,
         candidates s pos 10 ++ [generateShortCode s (pos + 6 * 9) 6],
         ["Failed to generate a unique short code after 10 attempts"]⟩) := by
  constructor
  · intro s pos query u cfg t h9 h10 h11 hfree
    have hl := codeLoop_break s query 9 10 pos 0 "" (by omega)
      (by intro i hi; rw [Nat.zero_add]; exact h9 i hi)
      (by rw [Nat.zero_add]; exact h10)
    norm_num at hl
    rw [shortenHandler_post u s pos query urlsInsert cfg t _ _ _ hl]
    rw [if_neg (by simp [h11])]
    have hins : urlsInsert t (generateShortCode s (pos + 6 * 9) 6) u =
        Except.ok ⟨t.rows ++ [(t.nextId, generateShortCode s (pos + 6 * 9) 6, u)], t.nextId + 1⟩ := by
      unfold urlsInsert
      rw [if_neg (by simp [hfree])]
    rw [hins]
  · intro s pos query u ins cfg t hall hfin
    have hl := codeLoop_exhaust s query 9 pos 0 ""
      (by intro i hi; rw [Nat.zero_add]; exact hall i hi)
    norm_num at hl
    rw [shortenHandler_post u s pos query ins cfg t _ _ _ hl]
    rw [if_pos hfin]

/-- Witness for C1: a storage rig reporting the candidate taken until the
9th query and free from the 10th on, and a rig always reporting taken. -/
theorem c1_collision_handling_witness :
    (∀ i, i < 9 → shortCodeExists ((fun i (_ : String) => (Except.ok (decide (i < 9)) : Except String Bool)) i)
      (generateShortCode (fun _ => 0) (0 + 6 * i) 6) = true) ∧
    shortenHandler "POST" "http://example.com" (fun _ => 0) 0
        (fun i (_ : String) => Except.ok (decide (i < 9))) urlsInsert loadConfig emptyUrls =
      ⟨⟨200, "Short URL: " ++ loadConfig.ShortURLBase ++ generateShortCode (fun _ => 0) (0 + 6 * 9) 6⟩,
       ⟨emptyUrls.rows ++ [(emptyUrls.nextId, generateShortCode (fun _ => 0) (0 + 6 * 9) 6, "http://example.com")],
        emptyUrls.nextId + 1⟩,
       candidates (fun _ => 0) 0 10 ++ [generateShortCode (fun _ => 0) (0 + 6 * 9) 6], []⟩ ∧
    (∀ i, i < 10 → shortCodeExists ((fun (_ : Nat) (_ : String) => (Except.ok true : Except String Bool)) i)
      (generateShortCode (fun _ => 0) (0 + 6 * i) 6) = true) ∧
    shortenHandler "POST" "http://example.com" (fun _ => 0) 0
        (fun _ _ => Except.ok true) urlsInsert loadConfig emptyUrls =
      ⟨⟨500, "Internal server error"⟩, emptyUrls,
       candidates (fun _ => 0) 0 10 ++ [generateShortCode (fun _ => 0) (0 + 6 * 9) 6],
       ["Failed to generate a unique short code after 10 attempts"]⟩ :=
  ⟨by decide,
   c1_collision_handling.1 (fun _ => 0) 0 (fun i _ => Except.ok (decide (i < 9)))
     "http://example.com" loadConfig emptyUrls (by decide) (by decide) (by decide) (by decide),
   by decide,
   c1_collision_handling.2 (fun _ => 0) 0 (fun _ _ => Except.ok true)
     "http://example.com" urlsInsert loadConfig emptyUrls (by decide) (by decide)⟩

/-- Claim C9: when the existence check reports a collision for all 10
loop candidates, the handler still performs one more existence check on
the last candidate — 11 checks in all, the last candidate checked twice —
and the allocation-failure outcome (distinctive log line, 500, untouched
table) holds if and only if that eleventh query reports existence; when
the eleventh query reports the code free, the handler proceeds past the
allocation-failure branch despite the loop having seen 10 collisions. -/
theorem c9_post_loop_recheck (s : Nat → Nat) (pos : Nat)
    (query : Nat → String → Except String Bool) (u : String)
    (ins : UrlsTable → String → String → Except String UrlsTable)
    (cfg : Config) (t : UrlsTable)
    (hloop : ∀ i, i < 10 → shortCodeExists (query i) (generateShortCode s (pos + 6 * i) 6) = true) :
    (shortenHandler "POST" u s pos query ins cfg t).checks =
        candidates s pos 9 ++ [generateShortCode s (pos + 6 * 9) 6, generateShortCode s (pos + 6 * 9) 6] ∧
    (shortenHandler "POST" u s pos query ins cfg t).checks.length = 11 ∧
    ((shortenHandler "POST" u s pos query ins cfg t).logs =
          ["Failed to generate a unique short code after 10 attempts"] ∧
        (shortenHandler "POST" u s pos query ins cfg t).response.status = 500 ∧
        (shortenHandler "POST" u s pos query ins cfg t).table = t ↔
      shortCodeExists (query 10) (generateShortCode s (pos + 6 * 9) 6) = true) ∧
    (shortCodeExists (query 10) (generateShortCode s (pos + 6 * 9) 6) = false →
      "Failed to generate a unique short code after 10 attempts" ∉
        (shortenHandler "POST" u s pos query ins cfg t).logs) := by
  have hl := codeLoop_exhaust s query 9 pos 0 ""
    (by intro i hi; rw [Nat.zero_add]; exact hloop i hi)
  norm_num at hl
  rw [shortenHandler_post u s pos query ins cfg t _ _ _ hl]
  by_cases hx : shortCodeExists (query 10) (generateShortCode s (pos + 6 * 9) 6) = true
  · rw [if_pos hx]
    refine ⟨?_, ?_, ?_, ?_⟩
    · simp only [candidates_snoc s 9 pos]
      simp
    · simp [candidates_length]
    · simp [hx]
    · intro hc
      rw [hx] at hc
      exact absurd hc (by simp)
  · rw [if_neg hx]
    simp only [Bool.not_eq_true] at hx
    cases hins : ins t (generateShortCode s (pos + 6 * 9) 6) u with
    | error e =>
      refine ⟨?_, ?_, ?_, ?_⟩
      · simp only [candidates_snoc s 9 pos]
        simp
      · simp [candidates_length]
      · constructor
        · rintro ⟨hlg, -, -⟩
          simp at hlg
        · intro hc
          rw [hc] at hx
          simp at hx
      · intro _
        simp
    | ok t2 =>
      refine ⟨?_, ?_, ?_, ?_⟩
      · simp only [candidates_snoc s 9 pos]
        simp
      · simp [candidates_length]
      · constructor
        · rintro ⟨hlg, -, -⟩
          simp at hlg
        · intro hc
          rw [hc] at hx
          simp at hx
      · intro _
        simp

/-- Witness for C9: the always-colliding rig makes 11 checks of the same
candidate and fails allocation on the eleventh. -/
theorem c9_post_loop_recheck_witness :
    (∀ i, i < 10 → shortCodeExists ((fun (_ : Nat) (_ : String) => (Except.ok true : Except String Bool)) i)
      (generateShortCode (fun _ => 0) (0 + 6 * i) 6) = true) ∧
    (shortenHandler "POST" "http://example.com" (fun _ => 0) 0 (fun _ _ => Except.ok true)
        urlsInsert loadConfig emptyUrls).checks =
      candidates (fun _ => 0) 0 9 ++
        [generateShortCode (fun _ => 0) (0 + 6 * 9) 6, generateShortCode (fun _ => 0) (0 + 6 * 9) 6] ∧
    (shortenHandler "POST" "http://example.com" (fun _ => 0) 0 (fun _ _ => Except.ok true)
        urlsInsert loadConfig emptyUrls).checks.length = 11 :=
  ⟨by decide,
   (c9_post_loop_recheck (fun _ => 0) 0 (fun _ _ => Except.ok true) "http://example.com"
     urlsInsert loadConfig emptyUrls (by decide)).1,
   (c9_post_loop_recheck (fun _ => 0) 0 (fun _ _ => Except.ok true) "http://example.com"
     urlsInsert loadConfig emptyUrls (by decide)).2.1⟩

/-- Claim C2: for any sequence of N shorten calls that all succeed,
starting from the freshly created table, the N returned bodies (hence
codes) are pairwise distinct and the table holds exactly N rows with
pairwise distinct codes; moreover the storage layer's UNIQUE constraint
independently rejects any insert of an already-present code. -/
theorem c2_uniqueness_invariant (inputs : List (String × (Nat → Nat) × Nat)) (cfg : Config)
    (hall : ∀ o ∈ (runShorten cfg inputs emptyUrls).1, o.response.status = 200) :
    (runShorten cfg inputs emptyUrls).2.rows.length = inputs.length ∧
    ((runShorten cfg inputs emptyUrls).2.rows.map (fun r => r.2.1)).Nodup ∧
    ((runShorten cfg inputs emptyUrls).1.map (fun o => o.response.body)).Nodup ∧
    (∀ (t : UrlsTable) (code url : String), t.rows.any (fun r => r.2.1 == code) = true →
      urlsInsert t code url = Except.error "UNIQUE constraint failed: urls.short_code") := by
  obtain ⟨newCodes, hlen, hmap, hbodies, hnds, hcount⟩ :=
    runShorten_success cfg inputs emptyUrls (by simp [emptyUrls]) hall
  refine ⟨?_, ?_, ?_, ?_⟩
  · rw [hcount]
    simp [emptyUrls]
  · rw [hmap]
    simpa [emptyUrls] using hnds
  · rw [hbodies]
    have hnodup : newCodes.Nodup := by simpa [emptyUrls] using hnds
    apply hnodup.map
    intro a b h
    exact string_append_left_cancel ("Short URL: " ++ cfg.ShortURLBase) a b h
  · intro t code url h
    unfold urlsInsert
    rw [if_pos h]

/-- Witness for C2: two successful calls from the fresh table give two
rows, two distinct codes, two distinct bodies. -/
theorem c2_uniqueness_invariant_witness :
    (∀ o ∈ (runShorten loadConfig
        [("http://example.com", fun _ => 0, 0), ("http://example.com", fun _ => 1, 0)]
        emptyUrls).1, o.response.status = 200) ∧
    (runShorten loadConfig
        [("http://example.com", fun _ => 0, 0), ("http://example.com", fun _ => 1, 0)]
        emptyUrls).2.rows.length =
      ([("http://example.com", fun _ => (0 : Nat), (0 : Nat)),
        ("http://example.com", fun _ => 1, 0)] : List (String × (Nat → Nat) × Nat)).length ∧
    ((runShorten loadConfig
        [("http://example.com", fun _ => 0, 0), ("http://example.com", fun _ => 1, 0)]
        emptyUrls).2.rows.map (fun r => r.2.1)).Nodup ∧
    ((runShorten loadConfig
        [("http://example.com", fun _ => 0, 0), ("http://example.com", fun _ => 1, 0)]
        emptyUrls).1.map (fun o => o.response.body)).Nodup :=
  ⟨by decide,
   (c2_uniqueness_invariant
     [("http://example.com", fun _ => 0, 0), ("http://example.com", fun _ => 1, 0)]
     loadConfig (by decide)).1,
   (c2_uniqueness_invariant
     [("http://example.com", fun _ => 0, 0), ("http://example.com", fun _ => 1, 0)]
     loadConfig (by decide)).2.1,
   (c2_uniqueness_invariant
     [("http://example.com", fun _ => 0, 0), ("http://example.com", fun _ => 1, 0)]
     loadConfig (by decide)).2.2.1⟩

/-- Claim C8: shortening does not deduplicate by content — two successful
shorten calls with the same long URL, run against the real storage
semantics, leave two distinct rows with two distinct codes (and two
distinct bodies). -/
theorem c8_no_dedup_by_content (u : String) (s1 : Nat → Nat) (p1 : Nat)
    (s2 : Nat → Nat) (p2 : Nat) (cfg : Config) (out1 out2 : ShortenOutcome)
    (h1 : shortenHandler "POST" u s1 p1 (urlsExistsQuery emptyUrls) urlsInsert cfg emptyUrls = out1)
    (h2 : shortenHandler "POST" u s2 p2 (urlsExistsQuery out1.table) urlsInsert cfg out1.table = out2)
    (hs1 : out1.response.status = 200) (hs2 : out2.response.status = 200) :
    ∃ c1 c2, c1 ≠ c2 ∧
      out1.response.body = "Short URL: " ++ cfg.ShortURLBase ++ c1 ∧
      out2.response.body = "Short URL: " ++ cfg.ShortURLBase ++ c2 ∧
      out2.table.rows = [(1, c1, u), (2, c2, u)] := by
  obtain ⟨c1, _, _, hbody1, _, hrows1, hnext1⟩ :=
    shorten_success_shape u s1 p1 cfg emptyUrls out1 h1 hs1
  obtain ⟨c2, _, _, hbody2, hfresh2, hrows2, _⟩ :=
    shorten_success_shape u s2 p2 cfg out1.table out2 h2 hs2
  simp only [emptyUrls] at hrows1 hnext1
  rw [hrows1] at hfresh2 hrows2
  rw [hnext1] at hrows2
  have hne : c1 ≠ c2 := by
    intro hcc
    subst hcc
    simp at hfresh2
  exact ⟨c1, c2, hne, hbody1, hbody2, by simpa using hrows2⟩

/-- Witness for C8: the same long URL shortened twice produces the rows
`(1, "aaaaaa", u)` and `(2, "bbbbbb", u)`. -/
theorem c8_no_dedup_by_content_witness :
    shortenHandler "POST" "http://example.com" (fun _ => 0) 0 (urlsExistsQuery emptyUrls)
        urlsInsert loadConfig emptyUrls =
      ⟨⟨200, "Short URL: http://short.url/aaaaaa"⟩,
       ⟨[(1, "aaaaaa", "http://example.com")], 2⟩, ["aaaaaa", "aaaaaa"], []⟩ ∧
    shortenHandler "POST" "http://example.com" (fun _ => 1) 0
        (urlsExistsQuery (⟨⟨200, "Short URL: http://short.url/aaaaaa"⟩,
          ⟨[(1, "aaaaaa", "http://example.com")], 2⟩, ["aaaaaa", "aaaaaa"], []⟩ : ShortenOutcome).table)
        urlsInsert loadConfig
        (⟨⟨200, "Short URL: http://short.url/aaaaaa"⟩,
          ⟨[(1, "aaaaaa", "http://example.com")], 2⟩, ["aaaaaa", "aaaaaa"], []⟩ : ShortenOutcome).table =
      ⟨⟨200, "Short URL: http://short.url/bbbbbb"⟩,
       ⟨[(1, "aaaaaa", "http://example.com"), (2, "bbbbbb", "http://example.com")], 3⟩,
       ["bbbbbb", "bbbbbb"], []⟩ ∧
    ∃ c1 c2, c1 ≠ c2 ∧
      (⟨⟨200, "Short URL: http://short.url/aaaaaa"⟩,
        ⟨[(1, "aaaaaa", "http://example.com")], 2⟩, ["aaaaaa", "aaaaaa"], []⟩ : ShortenOutcome).response.body =
        "Short URL: " ++ loadConfig.ShortURLBase ++ c1 ∧
      (⟨⟨200, "Short URL: http://short.url/bbbbbb"⟩,
        ⟨[(1, "aaaaaa", "http://example.com"), (2, "bbbbbb", "http://example.com")], 3⟩,
        ["bbbbbb", "bbbbbb"], []⟩ : ShortenOutcome).response.body =
        "Short URL: " ++ loadConfig.ShortURLBase ++ c2 ∧
      (⟨⟨200, "Short URL: http://short.url/bbbbbb"⟩,
        ⟨[(1, "aaaaaa", "http://example.com"), (2, "bbbbbb", "http://example.com")], 3⟩,
        ["bbbbbb", "bbbbbb"], []⟩ : ShortenOutcome).table.rows =
        [(1, c1, "http://example.com"), (2, c2, "http://example.com")] :=
  ⟨by decide, by decide,
   c8_no_dedup_by_content "http://example.com" (fun _ => 0) 0 (fun _ => 1) 0 loadConfig
     _ _ (by decide) (by decide) (by decide) (by decide)⟩

/-- Claim C10: the start-page handler is registered on the catch-all
route `/`, so any request whose (slash-initial) path is not `/shorten`
is, for every HTTP method, dispatched to the start-page handler and never
answered with the mux's 404. -/
theorem c10_catch_all_route (path method : String)
    (parseFilesResult executeResult : Except String Unit) (u : String)
    (s : Nat → Nat) (pos : Nat) (query : Nat → String → Except String Bool)
    (ins : UrlsTable → String → String → Except String UrlsTable)
    (cfg : Config) (t : UrlsTable)
    (hstart : ∃ rest, path.data = '/' :: rest) (hne : path ≠ "/shorten") :
    serveMux path method parseFilesResult executeResult u s pos query ins cfg t =
      ServeResult.indexPage (indexHandler parseFilesResult executeResult) ∧
    serveMux path method parseFilesResult executeResult u s pos query ins cfg t ≠
      ServeResult.notFound := by
  have h1 : routeMatches "/" path = true := by
    unfold routeMatches
    rw [if_pos (by decide)]
    obtain ⟨rest, hrest⟩ := hstart
    show List.isPrefixOf ['/'] path.data = true
    rw [hrest]
    simp [List.isPrefixOf]
  have h2 : routeMatches "/shorten" path = false := by
    unfold routeMatches
    rw [if_neg (by decide)]
    exact beq_eq_false_iff_ne.mpr hne
  have hm : muxHandler path = some "/" := by
    unfold muxHandler registeredRoutes
    simp [h1, h2]
  constructor
  · unfold serveMux
    rw [hm]
    show (if ("/" : String) = "/shorten" then
        ServeResult.shortenResp (shortenHandler method u s pos query ins cfg t)
      else ServeResult.indexPage (indexHandler parseFilesResult executeResult)) =
        ServeResult.indexPage (indexHandler parseFilesResult executeResult)
    rw [if_neg (by decide)]
  · unfold serveMux
    rw [hm]
    show (if ("/" : String) = "/shorten" then
        ServeResult.shortenResp (shortenHandler method u s pos query ins cfg t)
      else ServeResult.indexPage (indexHandler parseFilesResult executeResult)) ≠
        ServeResult.notFound
    rw [if_neg (by decide)]
    simp

/-- Witness for C10: a `DELETE` to `/stats` is served by the start-page
handler. -/
theorem c10_catch_all_route_witness :
    (∃ rest, ("/stats" : String).data = '/' :: rest) ∧
    ("/stats" : String) ≠ "/shorten" ∧
    serveMux "/stats" "DELETE" (Except.ok ()) (Except.ok ()) "" (fun _ => 0) 0
        (urlsExistsQuery emptyUrls) urlsInsert loadConfig emptyUrls =
      ServeResult.indexPage (indexHandler (Except.ok ()) (Except.ok ())) :=
  ⟨⟨['s', 't', 'a', 't', 's'], by decide⟩, by decide,
   (c10_catch_all_route "/stats" "DELETE" (Except.ok ()) (Except.ok ()) "" (fun _ => 0) 0
     (urlsExistsQuery emptyUrls) urlsInsert loadConfig emptyUrls
     ⟨['s', 't', 'a', 't', 's'], by decide⟩ (by decide)).1⟩
